import Mathlib

/-!
Verification development for the Zap-Wall program (src/Zap_Wall.py).

The source is shallowly embedded: JSON values parsed by json.loads become
the inductive Json; Python truthiness, membership (in), subscripting and
dict.get become total Lean functions returning Option where the Python
operation can raise (none = exception); the bolt11 decoder, json.loads on
nested strings and the network-facing profile resolver are abstracted as
function parameters, since only their result shapes matter to the handler.
Mutable state (GUI comment list, per-widget total, global TOTAL_SAT)
becomes explicit state passing.
-/

namespace ZapWall

/-- A JSON value as produced by json.loads.  Numbers are modelled as
integers (no claim touches fractional amounts); object key lists model
Python dicts, whose keys are unique. -/
inductive Json where
  | null
  | bool (b : Bool)
  | num (n : Int)
  | str (s : String)
  | arr (l : List Json)
  | obj (l : List (String × Json))

/-- Python truthiness of a json.loads value: None, False, 0, "", [] and
\x7b\x7d are falsy, everything else truthy. -/
def Json.truthy : Json → Bool
  | .null => false
  | .bool b => b
  | .num n => n != 0
  | .str s => !s.isEmpty
  | .arr l => !l.isEmpty
  | .obj l => !l.isEmpty

/-- Python equality of a json.loads value against a string literal:
only an equal str compares equal. -/
def jeqStr (j : Json) (t : String) : Bool :=
  match j with
  | .str s => s == t
  | _ => false

/-- leadsWith n h: the char list n is an initial segment of h. -/
def leadsWith : List Char → List Char → Bool
  | [], _ => true
  | _ :: _, [] => false
  | a :: as, b :: bs => a == b && leadsWith as bs

/-- occursIn n h: the char list n occurs contiguously inside h. -/
def occursIn : List Char → List Char → Bool
  | n, [] => n.isEmpty
  | n, c :: rest => leadsWith n (c :: rest) || occursIn n rest

/-- Python substring test, needle in s for strings. -/
def pySubstr (needle s : String) : Bool :=
  occursIn needle.toList s.toList

/-- Python membership, needle in container, for a json.loads value:
key lookup on dicts, element equality on lists, substring on strings;
raises (none) on other types. -/
def pyIn (needle : String) (container : Json) : Option Bool :=
  match container with
  | .obj l => some (l.any (fun kv => kv.1 == needle))
  | .arr l => some (l.any (fun e => jeqStr e needle))
  | .str s => some (pySubstr needle s)
  | _ => none

/-- First binding of key k in a dict body (keys are unique). -/
def objGet (l : List (String × Json)) (k : String) : Option Json :=
  (l.find? (fun kv => kv.1 == k)).map (fun kv => kv.2)

/-- Key lookup on a value known to be used as a dict; none when the value
is not a dict or lacks the key. -/
def jLookup (j : Json) (k : String) : Option Json :=
  match j with
  | .obj l => objGet l k
  | _ => none

/-- Python subscript container[k] with a string key: dict lookup
(KeyError on a missing key = none); TypeError (none) on any other type,
including lists and strings subscripted by a string. -/
def pyGetItem (j : Json) (k : String) : Option Json :=
  match j with
  | .obj l => objGet l k
  | _ => none

/-- Python dict.get(k, d): default on a missing key; AttributeError
(none) when the receiver is not a dict. -/
def pyDictGet (j : Json) (k : String) (d : Json) : Option Json :=
  match j with
  | .obj l => some ((objGet l k).getD d)
  | _ => none

/-- Python x or y on json.loads values: first operand if truthy, else
the second. -/
def pyOrJ (a b : Json) : Json :=
  if a.truthy then a else b

mutual

/-- Python repr of a json.loads value (escaping of quotes and
backslashes inside strings is not modelled; no claim depends on it). -/
def pyRepr : Json → String
  | .null => "None"
  | .bool true => "True"
  | .bool false => "False"
  | .num n => toString n
  | .str s => "\x27" ++ s ++ "\x27"
  | .arr l => "[" ++ pyReprSeq l ++ "]"
  | .obj l => "\x7b" ++ pyReprObjSeq l ++ "\x7d"

/-- Comma-separated reprs of list elements. -/
def pyReprSeq : List Json → String
  | [] => ""
  | [j] => pyRepr j
  | j :: js => pyRepr j ++ ", " ++ pyReprSeq js

/-- Comma-separated reprs of dict entries. -/
def pyReprObjSeq : List (String × Json) → String
  | [] => ""
  | [kv] => "\x27" ++ kv.1 ++ "\x27: " ++ pyRepr kv.2
  | kv :: kvs => "\x27" ++ kv.1 ++ "\x27: " ++ pyRepr kv.2 ++ ", " ++ pyReprObjSeq kvs

end

/-- Python str() of a json.loads value, as interpolated by an f-string. -/
def pyStr (j : Json) : String :=
  match j with
  | .str s => s
  | _ => pyRepr j

/-- Result of bolt11.decode: the milli-satoshi amount (None for an
amountless invoice; the library returns a non-negative integer amount)
and the optional description. -/
structure Bolt where
  amount_msat : Option Nat
  description : Option String

/-- The fully formed event descriptor handed to handle_zap.
resolvedPubkey records the argument of the fetch_profile_name call when
one was made (none = the resolver was never invoked for this event). -/
structure ZEvent where
  sats : Nat
  content : Json
  name : String
  resolvedPubkey : Option Json

/-- Outcome of on_message_handler on one inbound frame: a clean early
return (skip), an uncaught exception propagating to the websocket
callback (raiseExn), or a call to handle_zap (emit). -/
inductive HRes where
  | raiseExn
  | skip
  | emit (ev : ZEvent)

/-- Outcome of the payment-record selection block (lines 170-176):
an uncaught exception, a clean skip, or the selected invoice record. -/
inductive SelRes where
  | raiseExn
  | skip
  | sel (inv : Json)

/-- Lines 170-176: prefer a top-level payment_hash, else look inside a
payment field, else skip.  Python membership on a non-container raises;
data["payment"] on a list or string raises. -/
def selectInvoice (data : Json) : SelRes :=
  match pyIn "payment_hash" data with
  | none => .raiseExn
  | some true => .sel data
  | some false =>
    match pyIn "payment" data with
    | none => .raiseExn
    | some false => .skip
    | some true =>
      match pyGetItem data "payment" with
      | none => .raiseExn
      | some pay =>
        match pyIn "payment_hash" pay with
        | none => .raiseExn
        | some true => .sel pay
        | some false => .skip

/-- Line 178: invoice.get("status") == "success". -/
def statusIsSuccess (invoice : Json) : Bool :=
  match jLookup invoice "status" with
  | some (.str s) => s == "success"
  | _ => false

/-- Lines 178-180, the paid gate: some true = accept, some false = skip,
none = .get raised on a non-dict record. -/
def paidCheck (invoice : Json) : Option Bool :=
  match pyDictGet invoice "paid" (.bool false) with
  | none => none
  | some paidV => some (paidV.truthy || statusIsSuccess invoice)

/-- Lines 182-188, the guarded decode block: invoice["bolt11"] (KeyError
caught), bolt11.decode (failure caught), amount_msat // 1000 (TypeError
on None caught).  none = the event is skipped; some gives the decoded
invoice and the satoshi amount. -/
def tryDecode (decode : String → Option Bolt) (invoice : Json) : Option (Bolt × Nat) :=
  match pyGetItem invoice "bolt11" with
  | some (.str s) =>
    match decode s with
    | some bolt =>
      match bolt.amount_msat with
      | some msat => some (bolt, msat / 1000)
      | none => none
    | none => none
  | _ => none

/-- Outcome of the zap-detection block (lines 195-205): an uncaught
exception, no zap (is_nostr_zap stays False), or a zap with the
extracted pubkey and content (missing fields default to None and ""). -/
inductive ZRes where
  | raiseExn
  | notZap
  | zap (pk content : Json)

/-- Lines 195-205.  The outer condition "extra" in invoice and "nostr"
in invoice["extra"] runs outside any try (none propagates); inside the
try, invoice["extra"]["nostr"] and json.loads failures are caught and
leave is_nostr_zap False.  is_nostr_zap is set whenever extra.nostr is a
string parsing to a JSON object, with or without a pubkey. -/
def detectZap (parse : String → Option Json) (invoice : Json) : ZRes :=
  match pyIn "extra" invoice with
  | none => .raiseExn
  | some hasExtra =>
    if hasExtra then
      match pyGetItem invoice "extra" with
      | none => .raiseExn
      | some extra =>
        match pyIn "nostr" extra with
        | none => .raiseExn
        | some hasNostr =>
          if hasNostr then
            match pyGetItem extra "nostr" with
            | none => .notZap
            | some nostrJson =>
              match nostrJson with
              | .str s =>
                match parse s with
                | none => .notZap
                | some zapReq =>
                  match zapReq with
                  | .obj q =>
                    .zap ((objGet q "pubkey").getD .null)
                      ((objGet q "content").getD (.str ""))
                  | _ => .notZap
              | _ => .notZap
          else .notZap
    else .notZap

/-- Lines 211-219, the plain-comment text chain: extra.comment (first
element of a non-empty list, or the string itself), else
memo or comment or bolt.description or "".  none = an uncaught raise
(extra being a list or string that contains "comment"). -/
def plainChain (invoice : Json) (bolt : Bolt) : Option Json :=
  let step :=
    match pyIn "extra" invoice with
    | none => none
    | some false => some (Json.str "")
    | some true =>
      match pyGetItem invoice "extra" with
      | none => none
      | some extra =>
        match pyIn "comment" extra with
        | none => none
        | some false => some (Json.str "")
        | some true =>
          match pyGetItem extra "comment" with
          | none => none
          | some cmt =>
            match cmt with
            | .arr (x :: _) => some x
            | .arr [] => some (Json.str "")
            | .str s => some (Json.str s)
            | _ => some (Json.str "")
  match step with
  | none => none
  | some zc =>
    if zc.truthy then some zc
    else
      match pyDictGet invoice "memo" (.str "") with
      | none => none
      | some memoV =>
        match pyDictGet invoice "comment" (.str "") with
        | none => none
        | some cmtV =>
          let descr := match bolt.description with
            | some s => Json.str s
            | none => Json.null
          some (pyOrJ memoV (pyOrJ cmtV (pyOrJ descr (.str ""))))

/-- Lines 190-226 after a successful decode: classify as Nostr zap or
plain comment, resolve the name only for a zap with a truthy pubkey,
derive the text, apply the zap glyph fallback, and emit the event. -/
def buildEvent (parse : String → Option Json) (fetchProfile : Json → String)
    (invoice : Json) (bolt : Bolt) (sats : Nat) : HRes :=
  match detectZap parse invoice with
  | .raiseExn => .raiseExn
  | .zap pk c =>
    if pk.truthy then
      .emit ⟨sats, (if c.truthy then c else .str "⚡️"), fetchProfile pk, some pk⟩
    else
      match plainChain invoice bolt with
      | none => .raiseExn
      | some zc =>
        .emit ⟨sats, (if zc.truthy then zc else .str "⚡️"), "someone", none⟩
  | .notZap =>
    match plainChain invoice bolt with
    | none => .raiseExn
    | some zc => .emit ⟨sats, zc, "someone", none⟩

/-- Lines 182-188 then 190-226: the decode stage feeding buildEvent. -/
def decodeStage (parse : String → Option Json) (decode : String → Option Bolt)
    (fetchProfile : Json → String) (invoice : Json) : HRes :=
  match tryDecode decode invoice with
  | none => .skip
  | some bs => buildEvent parse fetchProfile invoice bs.1 bs.2

/-- Lines 178-226: from the selected record onward. -/
def afterSelect (parse : String → Option Json) (decode : String → Option Bolt)
    (fetchProfile : Json → String) (invoice : Json) : HRes :=
  match paidCheck invoice with
  | none => .raiseExn
  | some false => .skip
  | some true => decodeStage parse decode fetchProfile invoice

/-- Lines 160-226, on_message_handler on one raw text frame.  parse is
json.loads (none = JSONDecodeError, caught at the top), decode is
bolt11.decode, fetchProfile is fetch_profile_name viewed abstractly as
the display name it returns. -/
def on_message_handler (parse : String → Option Json) (decode : String → Option Bolt)
    (fetchProfile : Json → String) (raw : String) : HRes :=
  match parse raw with
  | none => .skip
  | some data =>
    match selectInvoice data with
    | .raiseExn => .raiseExn
    | .skip => .skip
    | .sel invoice => afterSelect parse decode fetchProfile invoice

-- ---------------- Display state ----------------

/-- Line 39. -/
def MAX_COMMENTS : Nat := 6

/-- The mutable fields of the ZapWall widget: the rolling comment list
(mirrored verbatim into the visible labels) and the per-widget total. -/
structure WallSt where
  comments : List String
  total_sats : Nat

/-- Lines 94-106, ZapWall.add_comment: evict the oldest comment when the
list is at capacity, append the new one, and add sats to the widget
total when sats is not None. -/
def add_comment (w : WallSt) (msg : String) (sats : Option Nat) : WallSt :=
  let cs := if MAX_COMMENTS ≤ w.comments.length then w.comments.drop 1 else w.comments
  { comments := cs ++ [msg],
    total_sats := match sats with
      | some s => w.total_sats + s
      | none => w.total_sats }

/-- The whole display state: the widget plus the global TOTAL_SAT. -/
structure AppState where
  wall : WallSt
  TOTAL_SAT : Nat

/-- Lines 151-158, handle_zap: format the message, bump TOTAL_SAT, and
add the comment with its sats. -/
def handle_zap (st : AppState) (sats : Nat) (zap_content : Json) (name : String) : AppState :=
  let msg := "⚡ " ++ toString sats ++ " sats from " ++ name ++ "\n" ++ pyStr zap_content
  { TOTAL_SAT := st.TOTAL_SAT + sats,
    wall := add_comment st.wall msg (some sats) }

/-- One inbound frame end to end: the handler either leaves the state
untouched (skip, or an exception swallowed by the websocket callback) or
reaches handle_zap. -/
def processMessage (parse : String → Option Json) (decode : String → Option Bolt)
    (fetchProfile : Json → String) (st : AppState) (raw : String) : AppState :=
  match on_message_handler parse decode fetchProfile raw with
  | .emit ev => handle_zap st ev.sats ev.content ev.name
  | _ => st

/-- The satoshi amounts of the frames the handler accepts (emits). -/
def acceptedSats (parse : String → Option Json) (decode : String → Option Bolt)
    (fetchProfile : Json → String) (msgs : List String) : List Nat :=
  msgs.filterMap (fun raw =>
    match on_message_handler parse decode fetchProfile raw with
    | .emit ev => some ev.sats
    | _ => none)

-- ---------------- Nostr profile lookup ----------------

/-- One frame received from a relay: a frame whose text parsed as JSON,
or any per-frame failure (recv timeout, connection drop, json.loads
failure on the frame) — all of which raise and abandon the relay. -/
inductive RFrame where
  | ok (j : Json)
  | err

/-- Effect of one frame on the lines 125-144 loop: return a name, break
out of the loop, continue to the next frame, or raise (caught by the
per-relay except). -/
inductive FrameRes where
  | ret (name : Json)
  | brk
  | cont
  | abort

/-- Python subscript container[i] with an int index: list element
(IndexError out of range = none), single-character string on strings,
TypeError (none) on other types. -/
def pyIndex (j : Json) (i : Nat) : Option Json :=
  match j with
  | .arr l => l.get? i
  | .str s => (s.toList.get? i).map (fun c => Json.str (String.mk [c]))
  | _ => none

/-- Lines 129-143, processing of one received frame: an EVENT for our
subscription has its content parsed and the first truthy of
display_name, name, username returned if any (else break); an EOSE
breaks; anything else continues; every raising step aborts the relay. -/
def processFrame (parse : String → Option Json) (subId : String) (f : RFrame) : FrameRes :=
  match f with
  | .err => .abort
  | .ok msg =>
    match pyIndex msg 0 with
    | none => .abort
    | some v0 =>
      if jeqStr v0 "EVENT" then
        match pyIndex msg 1 with
        | none => .abort
        | some v1 =>
          if jeqStr v1 subId then
            match pyIndex msg 2 with
            | none => .abort
            | some v2 =>
              match pyGetItem v2 "content" with
              | none => .abort
              | some (.str cs) =>
                match parse cs with
                | some (.obj q) =>
                  let nm := pyOrJ ((objGet q "display_name").getD .null)
                    (pyOrJ ((objGet q "name").getD .null)
                      ((objGet q "username").getD .null))
                  if nm.truthy then .ret nm else .brk
                | _ => .abort
              | some _ => .abort
          else if jeqStr v0 "EOSE" then .brk else .cont
      else if jeqStr v0 "EOSE" then .brk else .cont

/-- The lines 125-144 loop over the frames one relay yields: the first
frame that returns a name ends the lookup; a break, a raise, or running
out of frames (the next recv eventually times out) abandons the relay. -/
def processRelay (parse : String → Option Json) (subId : String) :
    List RFrame → Option Json
  | [] => none
  | f :: rest =>
    match processFrame parse subId f with
    | .ret n => some n
    | .brk => none
    | .abort => none
    | .cont => processRelay parse subId rest

/-- Lines 113-148, fetch_profile_name.  Each configured relay behaves as
none (create_connection failed) or some frame list; relays are tried in
order and every per-relay error moves to the next; exhaustion returns
the first 12 characters of the pubkey plus an ellipsis. -/
def fetch_profile_name (parse : String → Option Json) (subId : String)
    (pubkey : String) : List (Option (List RFrame)) → Json
  | [] => .str (pubkey.take 12 ++ "…")
  | r :: rest =>
    match r with
    | none => fetch_profile_name parse subId pubkey rest
    | some frames =>
      match processRelay parse subId frames with
      | some n => n
      | none => fetch_profile_name parse subId pubkey rest

-- ---------------- Theorems ----------------

/-- The wall state after a sequence of add_comment insertions, starting
from the freshly initialised widget (comments = [], total_sats = 0). -/
def wallAfter (entries : List (String × Option Nat)) : WallSt :=
  entries.foldl (fun w e => add_comment w e.1 e.2) ⟨[], 0⟩

lemma wallAfter_append (init : List (String × Option Nat)) (e : String × Option Nat) :
    wallAfter (init ++ [e]) = add_comment (wallAfter init) e.1 e.2 := by
  simp [wallAfter, List.foldl_append]

lemma wallAfter_comments (entries : List (String × Option Nat)) :
    (wallAfter entries).comments =
      (entries.map Prod.fst).drop (entries.length - MAX_COMMENTS) := by
  induction entries using List.reverseRecOn with
  | nil => rfl
  | append_singleton init e ih =>
    have hlen : (init.map Prod.fst).length = init.length := by simp
    rw [wallAfter_append]
    simp only [add_comment]
    rw [ih]
    simp only [List.map_append, List.length_append, List.map_cons, List.map_nil,
      List.length_drop, hlen, List.length_cons, List.length_nil]
    by_cases h : MAX_COMMENTS ≤ init.length - (init.length - MAX_COMMENTS)
    · rw [if_pos h, List.drop_drop]
      rw [List.drop_append_of_le_length (by unfold MAX_COMMENTS at *; omega)]
      congr 2
      unfold MAX_COMMENTS at *
      omega
    · rw [if_neg h]
      have h0 : init.length - MAX_COMMENTS = 0 := by unfold MAX_COMMENTS at *; omega
      have h1 : init.length + 1 - MAX_COMMENTS = 0 := by unfold MAX_COMMENTS at *; omega
      rw [h0, h1, List.drop_zero, List.drop_zero]

/-- Claim C3: the rolling message list never exceeds MAX_COMMENTS
(default 6) after any number of add_comment insertions from the initial
empty wall, and the visible list always equals the most recent
insertions in insertion order — in particular, after more than
MAX_COMMENTS insertions it is exactly the last MAX_COMMENTS inserted
messages (the drop of all but the final MAX_COMMENTS). -/
theorem zap_wall_capacity (entries : List (String × Option Nat)) :
    (wallAfter entries).comments.length ≤ MAX_COMMENTS ∧
    (wallAfter entries).comments =
      (entries.map Prod.fst).drop ((entries.map Prod.fst).length - MAX_COMMENTS) := by
  have hc := wallAfter_comments entries
  have hlen : (entries.map Prod.fst).length = entries.length := by simp
  constructor
  · rw [hc, List.length_drop, hlen]
    unfold MAX_COMMENTS
    omega
  · rw [hc, hlen]

/-- Satoshi contribution of one handler outcome: the event amount when
handle_zap is reached, 0 otherwise. -/
def evSats : HRes → Nat
  | .emit ev => ev.sats
  | _ => 0

lemma acceptedSats_cons (p : String → Option Json) (d : String → Option Bolt)
    (f : Json → String) (raw : String) (msgs : List String) :
    (acceptedSats p d f (raw :: msgs)).sum =
      evSats (on_message_handler p d f raw) + (acceptedSats p d f msgs).sum := by
  unfold acceptedSats evSats
  cases h : on_message_handler p d f raw <;> simp [List.filterMap_cons, h]

lemma processMessage_totals (p : String → Option Json) (d : String → Option Bolt)
    (f : Json → String) (st : AppState) (raw : String) :
    (processMessage p d f st raw).TOTAL_SAT
        = st.TOTAL_SAT + evSats (on_message_handler p d f raw) ∧
    (processMessage p d f st raw).wall.total_sats
        = st.wall.total_sats + evSats (on_message_handler p d f raw) := by
  unfold processMessage evSats
  cases h : on_message_handler p d f raw <;> simp [handle_zap, add_comment]

/-- Claim C4: after any sequence of inbound messages, both the global
TOTAL_SAT and the widget total equal their initial value plus the sum of
the satoshi amounts of the accepted (emitted) events, and each single
message leaves them non-decreasing. -/
theorem zap_wall_total_sum (p : String → Option Json) (d : String → Option Bolt)
    (f : Json → String) (msgs : List String) (st : AppState) :
    (msgs.foldl (processMessage p d f) st).TOTAL_SAT
        = st.TOTAL_SAT + (acceptedSats p d f msgs).sum ∧
    (msgs.foldl (processMessage p d f) st).wall.total_sats
        = st.wall.total_sats + (acceptedSats p d f msgs).sum ∧
    (∀ raw, st.TOTAL_SAT ≤ (processMessage p d f st raw).TOTAL_SAT ∧
      st.wall.total_sats ≤ (processMessage p d f st raw).wall.total_sats) := by
  induction msgs generalizing st with
  | nil =>
    refine ⟨by simp [acceptedSats], by simp [acceptedSats], fun raw => ?_⟩
    have h := processMessage_totals p d f st raw
    omega
  | cons raw msgs ih =>
    have hstep := processMessage_totals p d f st raw
    have htail := ih (processMessage p d f st raw)
    refine ⟨?_, ?_, fun r => ?_⟩
    · rw [List.foldl_cons, htail.1, hstep.1, acceptedSats_cons]
      omega
    · rw [List.foldl_cons, htail.2.1, hstep.2, acceptedSats_cons]
      omega
    · have h := processMessage_totals p d f st r
      omega

lemma paidCheck_obj (l : List (String × Json)) :
    paidCheck (.obj l) =
      some (((objGet l "paid").getD (.bool false)).truthy || statusIsSuccess (.obj l)) := by
  simp [paidCheck, pyDictGet]

lemma statusIsSuccess_iff (l : List (String × Json)) :
    statusIsSuccess (.obj l) = true ↔ objGet l "status" = some (.str "success") := by
  unfold statusIsSuccess jLookup
  cases hs : objGet l "status" with
  | none => simp [hs]
  | some j => cases j <;> simp_all

/-- Claim C1: a selected payment record with paid == true or
status == "success" (inclusive or) passes the paid gate, and processing
continues with the decode stage; a record whose paid field is absent or
false and whose status is not "success" is skipped at the gate — for
every decoder and resolver, the handler returns skip and the display
state is untouched. -/
theorem zap_wall_paid_gate (l : List (String × Json))
    (p : String → Option Json) (d : String → Option Bolt) (f : Json → String) :
    ((objGet l "paid" = some (.bool true) ∨ objGet l "status" = some (.str "success")) →
      afterSelect p d f (.obj l) = decodeStage p d f (.obj l)) ∧
    ((objGet l "paid" = none ∨ objGet l "paid" = some (.bool false)) →
      objGet l "status" ≠ some (.str "success") →
      afterSelect p d f (.obj l) = .skip ∧
      (∀ st raw data, p raw = some data → selectInvoice data = .sel (.obj l) →
        on_message_handler p d f raw = .skip ∧ processMessage p d f st raw = st)) := by
  constructor
  · intro h
    have hb : (((objGet l "paid").getD (.bool false)).truthy
        || statusIsSuccess (.obj l)) = true := by
      rcases h with h | h
      · rw [h]
        simp [Json.truthy]
      · rw [(statusIsSuccess_iff l).mpr h]
        simp
    unfold afterSelect
    rw [paidCheck_obj, hb]
  · intro hpaid hstatus
    have hs : statusIsSuccess (.obj l) = false := by
      cases hb : statusIsSuccess (.obj l)
      · rfl
      · exact absurd ((statusIsSuccess_iff l).mp hb) hstatus
    have hfalse : (((objGet l "paid").getD (.bool false)).truthy
        || statusIsSuccess (.obj l)) = false := by
      rcases hpaid with h | h <;> rw [h, hs] <;> rfl
    have hgate : paidCheck (.obj l) = some false := by
      rw [paidCheck_obj, hfalse]
    have hskip : afterSelect p d f (.obj l) = .skip := by
      unfold afterSelect
      rw [hgate]
    refine ⟨hskip, fun st raw data hp hsel => ?_⟩
    have hh : on_message_handler p d f raw = .skip := by
      simp only [on_message_handler, hp, hsel]
      exact hskip
    refine ⟨hh, ?_⟩
    simp only [processMessage, hh]

/-- A parse function for concrete instances: maps the frame "m" to a
flat paid record, "u" to a flat record that is not marked paid. -/
def parseCW : String → Option Json := fun r =>
  if r = "m" then some (.obj [("payment_hash", .str "h"), ("paid", .bool true), ("bolt11", .str "lnb")])
  else if r = "u" then some (.obj [("payment_hash", .str "h"), ("bolt11", .str "lnb")])
  else none

/-- A decoder for concrete instances: every string decodes to a
2 000 000 msat invoice with no description. -/
def decodeCW : String → Option Bolt := fun _ => some ⟨some 2000000, none⟩

/-- A resolver stub for concrete instances. -/
def fetchCW : Json → String := fun _ => "anon"

/-- Witness for C1: the unpaid flat record "u" is skipped at the gate
and leaves a concrete display state unchanged; the paid record passes
to the decode stage. -/
theorem zap_wall_paid_gate_witness :
    on_message_handler parseCW decodeCW fetchCW "u" = .skip ∧
    processMessage parseCW decodeCW fetchCW ⟨⟨["old"], 5⟩, 7⟩ "u" = ⟨⟨["old"], 5⟩, 7⟩ ∧
    afterSelect parseCW decodeCW fetchCW
        (.obj [("payment_hash", .str "h"), ("paid", .bool true), ("bolt11", .str "lnb")])
      = decodeStage parseCW decodeCW fetchCW
        (.obj [("payment_hash", .str "h"), ("paid", .bool true), ("bolt11", .str "lnb")]) := by
  have h1 := zap_wall_paid_gate [("payment_hash", .str "h"), ("bolt11", .str "lnb")]
    parseCW decodeCW fetchCW
  have h2 := zap_wall_paid_gate
    [("payment_hash", .str "h"), ("paid", .bool true), ("bolt11", .str "lnb")]
    parseCW decodeCW fetchCW
  have hb := (h1.2 (Or.inl rfl) (fun h => Option.noConfusion h)).2
    ⟨⟨["old"], 5⟩, 7⟩ "u" _ rfl rfl
  exact ⟨hb.1, hb.2, h2.1 (Or.inl rfl)⟩

/-- Claim C9: every discarded inbound message — malformed JSON, a
payload with neither the flat nor the nested payment shape, an unpaid
record, or a bolt11 decode failure — leaves the display state entirely
unchanged: the rolling message list, the widget total and the global
TOTAL_SAT are exactly as before. -/
theorem zap_wall_discard_no_change (p : String → Option Json) (d : String → Option Bolt)
    (f : Json → String) (st : AppState) (raw : String) :
    (p raw = none ∨
      (∃ data, p raw = some data ∧
        (selectInvoice data = .skip ∨
          (∃ inv, selectInvoice data = .sel inv ∧
            (paidCheck inv = some false ∨
              (paidCheck inv = some true ∧ tryDecode d inv = none)))))) →
    processMessage p d f st raw = st ∧
    (processMessage p d f st raw).wall.comments = st.wall.comments ∧
    (processMessage p d f st raw).wall.total_sats = st.wall.total_sats ∧
    (processMessage p d f st raw).TOTAL_SAT = st.TOTAL_SAT := by
  intro h
  have hskip : on_message_handler p d f raw = .skip := by
    rcases h with h | ⟨data, hp, h⟩
    · simp only [on_message_handler, h]
    · rcases h with h | ⟨inv, hsel, h⟩
      · simp only [on_message_handler, hp, h]
      · simp only [on_message_handler, hp, hsel]
        rcases h with h | ⟨h1, h2⟩
        · simp only [afterSelect, h]
        · simp only [afterSelect, h1, decodeStage, h2]
  have hst : processMessage p d f st raw = st := by
    simp only [processMessage, hskip]
  exact ⟨hst, by rw [hst], by rw [hst], by rw [hst]⟩

/-- Witness for C9: a frame that fails JSON parsing, and the unpaid
record {"paid": false, "bolt11": "lnb"} with a payment_hash, both leave
a concrete display state unchanged. -/
theorem zap_wall_discard_no_change_witness :
    processMessage parseCW decodeCW fetchCW ⟨⟨["a", "b"], 3⟩, 9⟩ "garbage" = ⟨⟨["a", "b"], 3⟩, 9⟩ ∧
    processMessage parseCW decodeCW fetchCW ⟨⟨["a", "b"], 3⟩, 9⟩ "u" = ⟨⟨["a", "b"], 3⟩, 9⟩ := by
  refine ⟨(zap_wall_discard_no_change parseCW decodeCW fetchCW _ "garbage" (Or.inl rfl)).1,
    (zap_wall_discard_no_change parseCW decodeCW fetchCW _ "u" (Or.inr ⟨_, rfl, Or.inr ⟨_, rfl, Or.inl rfl⟩⟩)).1⟩

lemma buildEvent_sats (p : String → Option Json) (f : Json → String)
    (inv : Json) (bolt : Bolt) (sats : Nat) (ev : ZEvent) :
    buildEvent p f inv bolt sats = .emit ev → ev.sats = sats := by
  unfold buildEvent
  intro h
  split at h
  · cases h
  · split at h
    · cases h
      rfl
    · split at h
      · cases h
      · cases h
        rfl
  · split at h
    · cases h
    · cases h
      rfl

/-- Claim C2: for every accepted paid invoice whose bolt11 string
decodes to a milli-satoshi amount, the satoshi amount of the emitted
event equals the floor of amount_msat / 1000 and is a non-negative
integer. -/
theorem zap_wall_sats_floor (p : String → Option Json) (d : String → Option Bolt)
    (f : Json → String) (raw : String) (data inv : Json) (s : String)
    (bolt : Bolt) (msat : Nat) (ev : ZEvent)
    (hp : p raw = some data) (hsel : selectInvoice data = .sel inv)
    (hbolt : pyGetItem inv "bolt11" = some (.str s)) (hd : d s = some bolt)
    (hmsat : bolt.amount_msat = some msat)
    (hemit : on_message_handler p d f raw = .emit ev) :
    ev.sats = msat / 1000 ∧ 1000 * ev.sats ≤ msat ∧ msat < 1000 * ev.sats + 1000 ∧
    (0 : Int) ≤ (ev.sats : Int) := by
  simp only [on_message_handler, hp, hsel] at hemit
  unfold afterSelect at hemit
  have hsats : ev.sats = msat / 1000 := by
    cases hpc : paidCheck inv with
    | none =>
      simp only [hpc] at hemit
      cases hemit
    | some b =>
      cases b
      · simp only [hpc] at hemit
        cases hemit
      · simp only [hpc] at hemit
        unfold decodeStage at hemit
        have htry : tryDecode d inv = some (bolt, msat / 1000) := by
          simp only [tryDecode, hbolt, hd, hmsat]
        rw [htry] at hemit
        exact buildEvent_sats p f inv bolt (msat / 1000) ev hemit
  refine ⟨hsats, ?_, ?_, by positivity⟩
  · rw [hsats]
    omega
  · rw [hsats]
    omega

/-- Witness for C2: the paid record "m" decodes to 2 000 000 msat and
the emitted event carries 2000 sats = floor(2000000 / 1000). -/
theorem zap_wall_sats_floor_witness :
    on_message_handler parseCW decodeCW fetchCW "m"
        = .emit ⟨2000, .str "", "someone", none⟩ ∧
    (2000 : Nat) = 2000000 / 1000 := by
  have h := zap_wall_sats_floor parseCW decodeCW fetchCW "m" _ _ "lnb"
    ⟨some 2000000, none⟩ 2000000 ⟨2000, .str "", "someone", none⟩
    rfl rfl rfl rfl rfl rfl
  exact ⟨rfl, h.1⟩

lemma truthy_str_iff (s : String) : (Json.str s).truthy = true ↔ s ≠ "" := by
  show (!s.isEmpty) = true ↔ s ≠ ""
  cases h2 : s.isEmpty with
  | true =>
    have hs := (String.isEmpty_iff s).mp h2
    subst hs
    decide
  | false =>
    constructor
    · intro _ hne
      rw [hne] at h2
      exact absurd h2 (by decide)
    · intro _
      rfl

lemma buildEvent_zap_true (p : String → Option Json) (f : Json → String)
    (inv : Json) (bolt : Bolt) (sats : Nat) (pk c : Json)
    (hz : detectZap p inv = .zap pk c) (hpk : pk.truthy = true) :
    buildEvent p f inv bolt sats
      = .emit ⟨sats, (if c.truthy then c else .str "⚡️"), f pk, some pk⟩ := by
  unfold buildEvent
  rw [hz]
  simp [hpk]

lemma buildEvent_zap_false (p : String → Option Json) (f : Json → String)
    (inv : Json) (bolt : Bolt) (sats : Nat) (pk c : Json)
    (hz : detectZap p inv = .zap pk c) (hpk : pk.truthy = false) :
    buildEvent p f inv bolt sats
      = (match plainChain inv bolt with
        | none => .raiseExn
        | some zc => .emit ⟨sats, (if zc.truthy then zc else .str "⚡️"), "someone", none⟩) := by
  unfold buildEvent
  rw [hz]
  simp [hpk]

lemma buildEvent_notZap (p : String → Option Json) (f : Json → String)
    (inv : Json) (bolt : Bolt) (sats : Nat)
    (hz : detectZap p inv = .notZap) :
    buildEvent p f inv bolt sats
      = (match plainChain inv bolt with
        | none => .raiseExn
        | some zc => .emit ⟨sats, zc, "someone", none⟩) := by
  unfold buildEvent
  rw [hz]

/-- Claim C5: for every accepted Nostr zap (extra.nostr parses to an
object whose pubkey is truthy), the emitted text is the zap request's
content when that content is truthy and the fallback glyph otherwise;
whenever the content field is a string the displayed text is that
string if non-empty and the glyph if empty, and the displayed text is
never the empty string. -/
theorem zap_wall_zap_content (p : String → Option Json) (f : Json → String)
    (inv : Json) (bolt : Bolt) (sats : Nat) (pk c : Json)
    (hz : detectZap p inv = .zap pk c) (hpk : pk.truthy = true) :
    buildEvent p f inv bolt sats
      = .emit ⟨sats, (if c.truthy then c else .str "⚡️"), f pk, some pk⟩ ∧
    (∀ s, c = .str s →
      (if c.truthy then c else Json.str "⚡️") = .str (if s = "" then "⚡️" else s)) ∧
    (∀ s, (if c.truthy then c else Json.str "⚡️") = .str s → s ≠ "") := by
  refine ⟨buildEvent_zap_true p f inv bolt sats pk c hz hpk, ?_, ?_⟩
  · intro s hc
    subst hc
    by_cases hs : s = ""
    · subst hs
      rfl
    · rw [if_pos ((truthy_str_iff s).mpr hs), if_neg hs]
  · intro s hs
    cases hct : c.truthy
    · rw [if_neg (by simp [hct])] at hs
      have hglyph : s = "⚡️" := (Json.str.inj hs).symm
      subst hglyph
      decide
    · rw [if_pos hct] at hs
      subst hs
      exact (truthy_str_iff s).mp hct

/-- A parse function for the zap instances: the frame "zap" is a paid
record whose extra.nostr is the string "req", and "req" parses to a zap
request with pubkey "pk123" and content "hello". -/
def parseZW : String → Option Json := fun r =>
  if r = "zap" then
    some (.obj [("payment_hash", .str "h"), ("paid", .bool true),
      ("bolt11", .str "lnb"), ("extra", .obj [("nostr", .str "req")])])
  else if r = "req" then
    some (.obj [("pubkey", .str "pk123"), ("content", .str "hello")])
  else none

/-- The invoice record carried by the frame "zap". -/
def invZW : Json :=
  .obj [("payment_hash", .str "h"), ("paid", .bool true),
    ("bolt11", .str "lnb"), ("extra", .obj [("nostr", .str "req")])]

/-- Witness for C5: the zap request with content "hello" and pubkey
"pk123" is displayed as "hello" with the resolved name. -/
theorem zap_wall_zap_content_witness :
    buildEvent parseZW fetchCW invZW ⟨some 2000000, none⟩ 2000
      = .emit ⟨2000, .str "hello", "anon", some (.str "pk123")⟩ ∧
    ("hello" : String) ≠ "" := by
  have h := zap_wall_zap_content parseZW fetchCW invZW ⟨some 2000000, none⟩ 2000
    (.str "pk123") (.str "hello") rfl rfl
  exact ⟨h.1, h.2.2 "hello" (h.2.1 "hello" rfl)⟩

lemma buildEvent_no_resolver (p : String → Option Json) (f g : Json → String)
    (inv : Json) (bolt : Bolt) (sats : Nat)
    (h : detectZap p inv = .notZap ∨
      ∃ pk c, detectZap p inv = .zap pk c ∧ pk.truthy = false) :
    buildEvent p f inv bolt sats = buildEvent p g inv bolt sats ∧
    (∀ ev, buildEvent p f inv bolt sats = .emit ev →
      ev.resolvedPubkey = none ∧ ev.name = "someone") := by
  rcases h with h | ⟨pk, c, h, hpk⟩
  · rw [buildEvent_notZap p f inv bolt sats h, buildEvent_notZap p g inv bolt sats h]
    refine ⟨rfl, fun ev hev => ?_⟩
    cases hpl : plainChain inv bolt with
    | none =>
      rw [hpl] at hev
      cases hev
    | some zc =>
      rw [hpl] at hev
      cases hev
      exact ⟨rfl, rfl⟩
  · rw [buildEvent_zap_false p f inv bolt sats pk c h hpk,
      buildEvent_zap_false p g inv bolt sats pk c h hpk]
    refine ⟨rfl, fun ev hev => ?_⟩
    cases hpl : plainChain inv bolt with
    | none =>
      rw [hpl] at hev
      cases hev
    | some zc =>
      rw [hpl] at hev
      cases hev
      exact ⟨rfl, rfl⟩

/-- Claim C7: the identity resolver is invoked exactly for accepted
events that are Nostr zaps carrying a truthy pubkey — such an event
records the resolved pubkey and carries the resolver's answer as its
name; for every other accepted event (plain comments, and zap records
whose pubkey is absent or falsy) the handler's outcome is identical for
any two resolvers (the resolver is never called) and the emitted name is
the fixed placeholder "someone". -/
theorem zap_wall_resolver_calls (p : String → Option Json) (f g : Json → String)
    (inv : Json) (bolt : Bolt) (sats : Nat) :
    (∀ pk c, detectZap p inv = .zap pk c → pk.truthy = true →
      buildEvent p f inv bolt sats
        = .emit ⟨sats, (if c.truthy then c else .str "⚡️"), f pk, some pk⟩) ∧
    (∀ ev pk, buildEvent p f inv bolt sats = .emit ev → ev.resolvedPubkey = some pk →
      ∃ c, detectZap p inv = .zap pk c ∧ pk.truthy = true ∧ ev.name = f pk) ∧
    ((detectZap p inv = .notZap ∨
        ∃ pk c, detectZap p inv = .zap pk c ∧ pk.truthy = false) →
      buildEvent p f inv bolt sats = buildEvent p g inv bolt sats ∧
      (∀ ev, buildEvent p f inv bolt sats = .emit ev →
        ev.resolvedPubkey = none ∧ ev.name = "someone")) := by
  refine ⟨?_, ?_, buildEvent_no_resolver p f g inv bolt sats⟩
  · intro pk c hz hpk
    exact buildEvent_zap_true p f inv bolt sats pk c hz hpk
  · intro ev pk hev hres
    cases hz : detectZap p inv with
    | raiseExn =>
      unfold buildEvent at hev
      rw [hz] at hev
      cases hev
    | notZap =>
      have h := (buildEvent_no_resolver p f f inv bolt sats (Or.inl hz)).2 ev hev
      rw [h.1] at hres
      cases hres
    | zap pk2 c =>
      cases hpk : pk2.truthy with
      | false =>
        have h := (buildEvent_no_resolver p f f inv bolt sats
          (Or.inr ⟨pk2, c, hz, hpk⟩)).2 ev hev
        rw [h.1] at hres
        cases hres
      | true =>
        rw [buildEvent_zap_true p f inv bolt sats pk2 c hz hpk] at hev
        cases hev
        cases hres
        exact ⟨c, rfl, hpk, rfl⟩

/-- Witness for C7: the zap with pubkey "pk123" records the resolver
call, while the plain paid record "m" (no extra field) emits the
placeholder name and behaves identically under two different
resolvers. -/
theorem zap_wall_resolver_calls_witness :
    buildEvent parseZW fetchCW invZW ⟨some 2000000, none⟩ 2000
      = .emit ⟨2000, .str "hello", "anon", some (.str "pk123")⟩ ∧
    buildEvent parseCW fetchCW
        (.obj [("payment_hash", .str "h"), ("paid", .bool true), ("bolt11", .str "lnb")])
        ⟨some 2000000, none⟩ 2000
      = buildEvent parseCW (fun _ => "other")
        (.obj [("payment_hash", .str "h"), ("paid", .bool true), ("bolt11", .str "lnb")])
        ⟨some 2000000, none⟩ 2000 ∧
    (⟨2000, .str "", "someone", none⟩ : ZEvent).name = "someone" := by
  have h1 := (zap_wall_resolver_calls parseZW fetchCW fetchCW invZW
    ⟨some 2000000, none⟩ 2000).1 (.str "pk123") (.str "hello") rfl rfl
  have h2 := (zap_wall_resolver_calls parseCW fetchCW (fun _ => "other")
    (.obj [("payment_hash", .str "h"), ("paid", .bool true), ("bolt11", .str "lnb")])
    ⟨some 2000000, none⟩ 2000).2.2 (Or.inl rfl)
  exact ⟨h1, h2.1, (h2.2 ⟨2000, .str "", "someone", none⟩ rfl).2⟩

lemma pyGetItem_eq_jLookup (j : Json) (k : String) : pyGetItem j k = jLookup j k := by
  cases j <;> rfl

lemma objGet_key_any (l : List (String × Json)) (k : String) (v : Json)
    (h : objGet l k = some v) : l.any (fun kv => kv.1 == k) = true := by
  unfold objGet at h
  cases hf : l.find? (fun kv => kv.1 == k) with
  | none =>
    rw [hf] at h
    cases h
  | some a =>
    have hp := List.find?_some hf
    have hm : a ∈ l := List.mem_of_find?_eq_some hf
    exact List.any_eq_true.mpr ⟨a, hm, hp⟩

lemma jLookup_some_pyIn (inv : Json) (k : String) (v : Json)
    (h : jLookup inv k = some v) : pyIn k inv = some true := by
  cases inv with
  | obj l =>
    have h2 : objGet l k = some v := h
    show some (l.any fun kv => kv.1 == k) = some true
    rw [objGet_key_any l k v h2]
  | null => cases h
  | bool b => cases h
  | num n => cases h
  | str s => cases h
  | arr a => cases h

/-- The record "npz": paid, decodable, and its extra.nostr is the string
"np", which parses to a zap request that has a content but no pubkey. -/
def invNP : Json :=
  .obj [("payment_hash", .str "h"), ("paid", .bool true),
    ("bolt11", .str "lnb"), ("extra", .obj [("nostr", .str "np")])]

/-- Parse function for the pubkey-less zap instance. -/
def parseNP : String → Option Json := fun r =>
  if r = "npz" then some invNP
  else if r = "np" then some (.obj [("content", .str "hi")])
  else none

/-- Counterexample to C6 as stated: the record "npz" has an extra.nostr
that parses as JSON but contains no pubkey, yet the handler still sets
is_nostr_zap (detectZap classifies it as a zap with pubkey None), and
the event is not treated as a plain comment: its empty derived text is
replaced by the zap glyph, while the identical record without
extra.nostr emits the empty text. -/
theorem zap_wall_zap_detect_counterexample :
    detectZap parseNP invNP = .zap Json.null (.str "hi") ∧
    objGet [("content", Json.str "hi")] "pubkey" = none ∧
    on_message_handler parseNP decodeCW fetchCW "npz"
      = .emit ⟨2000, .str "⚡️", "someone", none⟩ ∧
    on_message_handler parseCW decodeCW fetchCW "m"
      = .emit ⟨2000, .str "", "someone", none⟩ :=
  ⟨rfl, rfl, rfl, rfl⟩

/-- Claim C6 (amended): an accepted event is classified as a Nostr zap
(is_nostr_zap is set) iff the record's extra field holds a nostr entry
that is a string parsing to a JSON object — a pubkey is not required;
the extracted pubkey and content default to None and "".  When the
pubkey is absent or falsy the event's name and text are derived as for
a plain comment, except that the empty-text zap glyph fallback still
applies. -/
theorem zap_wall_zap_detect_amended (p : String → Option Json) (f : Json → String)
    (inv : Json) (bolt : Bolt) (sats : Nat) :
    (∀ pk c, detectZap p inv = .zap pk c ↔
      ∃ el s q, jLookup inv "extra" = some el ∧
        pyGetItem el "nostr" = some (.str s) ∧ p s = some (.obj q) ∧
        pk = (objGet q "pubkey").getD .null ∧
        c = (objGet q "content").getD (.str "")) ∧
    (∀ pk c zc, detectZap p inv = .zap pk c → pk.truthy = false →
      plainChain inv bolt = some zc →
      buildEvent p f inv bolt sats
        = .emit ⟨sats, (if zc.truthy then zc else .str "⚡️"), "someone", none⟩) := by
  constructor
  · intro pk c
    constructor
    · intro h
      unfold detectZap at h
      cases hin : pyIn "extra" inv with
      | none =>
        rw [hin] at h
        cases h
      | some hasExtra =>
        simp only [hin] at h
        cases hasExtra with
        | false => cases h
        | true =>
          rw [if_pos rfl] at h
          cases hg : pyGetItem inv "extra" with
          | none =>
            rw [hg] at h
            cases h
          | some extra =>
            simp only [hg] at h
            cases hn : pyIn "nostr" extra with
            | none =>
              rw [hn] at h
              cases h
            | some hasNostr =>
              simp only [hn] at h
              cases hasNostr with
              | false => cases h
              | true =>
                rw [if_pos rfl] at h
                cases hgi : pyGetItem extra "nostr" with
                | none =>
                  rw [hgi] at h
                  cases h
                | some nostrJson =>
                  simp only [hgi] at h
                  cases nostrJson with
                  | str s =>
                    have h2 : (match p s with
                      | none => ZRes.notZap
                      | some zapReq =>
                        match zapReq with
                        | Json.obj q =>
                          ZRes.zap ((objGet q "pubkey").getD Json.null)
                            ((objGet q "content").getD (Json.str ""))
                        | _ => ZRes.notZap) = ZRes.zap pk c := h
                    cases hp2 : p s with
                    | none =>
                      rw [hp2] at h2
                      cases h2
                    | some zapReq =>
                      rw [hp2] at h2
                      cases zapReq with
                      | obj q =>
                        cases h2
                        exact ⟨extra, s, q, by rw [← pyGetItem_eq_jLookup, hg],
                          hgi, hp2, rfl, rfl⟩
                      | null => cases h2
                      | bool b => cases h2
                      | num n => cases h2
                      | str s2 => cases h2
                      | arr a => cases h2
                  | null => cases h
                  | bool b => cases h
                  | num n => cases h
                  | arr a => cases h
                  | obj l2 => cases h
    · rintro ⟨el, s, q, h1, h2, h3, hpk, hc⟩
      subst hpk
      subst hc
      have hin : pyIn "extra" inv = some true := jLookup_some_pyIn inv "extra" el h1
      have hg : pyGetItem inv "extra" = some el := by
        rw [pyGetItem_eq_jLookup]
        exact h1
      have hn : pyIn "nostr" el = some true := by
        apply jLookup_some_pyIn el "nostr" (.str s)
        rw [← pyGetItem_eq_jLookup]
        exact h2
      unfold detectZap
      simp only [hin, hg, hn, h2, h3, if_pos]
  · intro pk c zc hz hpk hpl
    rw [buildEvent_zap_false p f inv bolt sats pk c hz hpk]
    simp only [hpl]

/-- Witness for the amended C6: the pubkey-less record "npz" is
classified as a zap by the characterization, and its empty plain-chain
text is replaced by the glyph. -/
theorem zap_wall_zap_detect_amended_witness :
    detectZap parseNP invNP = .zap Json.null (.str "hi") ∧
    buildEvent parseNP fetchCW invNP ⟨some 500, none⟩ 0
      = .emit ⟨0, .str "⚡️", "someone", none⟩ := by
  have h := zap_wall_zap_detect_amended parseNP fetchCW invNP ⟨some 500, none⟩ 0
  refine ⟨(h.1 Json.null (.str "hi")).mpr
    ⟨.obj [("nostr", .str "np")], "np", [("content", .str "hi")], rfl, rfl, rfl, rfl, rfl⟩, ?_⟩
  have h2 := h.2 Json.null (.str "hi") (.str "") (by
    exact (h.1 Json.null (.str "hi")).mpr
      ⟨.obj [("nostr", .str "np")], "np", [("content", .str "hi")], rfl, rfl, rfl, rfl, rfl⟩)
    rfl rfl
  exact h2

/-- A decoder that yields a 500 msat invoice (sub-satoshi amounts are
legal bolt11). -/
def decodeSub : String → Option Bolt := fun _ => some ⟨some 500, none⟩

/-- A decoder that yields an amountless invoice (amount_msat is None). -/
def decodeNone : String → Option Bolt := fun _ => some ⟨none, none⟩

/-- Counterexample to C10 as stated: a paid 500 msat invoice floors to
0 sats, and this zero-amount event does reach the presentation sink —
the handler emits it and the rolling list gains the formatted line. -/
theorem zap_wall_zero_sats_counterexample :
    on_message_handler parseCW decodeSub fetchCW "m"
      = .emit ⟨0, .str "", "someone", none⟩ ∧
    processMessage parseCW decodeSub fetchCW ⟨⟨[], 0⟩, 0⟩ "m"
      = ⟨⟨["⚡ 0 sats from someone\n"], 0⟩, 0⟩ :=
  ⟨rfl, rfl⟩

/-- Claim C10 (amended): for every paid invoice whose bolt11 string
decodes but carries no amount (amount_msat is None), the floor division
raises inside the guarded decode block and the event is discarded via
the decode-failure path (a clean skip — the handler never propagates the
exception), leaving the display state unchanged.  Amountless events
never reach the sink; zero-satoshi events, however, can (see the
counterexample: sub-1000 msat amounts floor to 0). -/
theorem zap_wall_amountless_discard (p : String → Option Json) (d : String → Option Bolt)
    (f : Json → String) (raw : String) (data inv : Json) (s : String) (bolt : Bolt)
    (st : AppState)
    (hp : p raw = some data) (hsel : selectInvoice data = .sel inv)
    (hpc : paidCheck inv = some true)
    (hbolt : pyGetItem inv "bolt11" = some (.str s)) (hd : d s = some bolt)
    (hm : bolt.amount_msat = none) :
    on_message_handler p d f raw = .skip ∧
    on_message_handler p d f raw ≠ .raiseExn ∧
    processMessage p d f st raw = st := by
  have htry : tryDecode d inv = none := by
    simp only [tryDecode, hbolt, hd, hm]
  have hh : on_message_handler p d f raw = .skip := by
    simp only [on_message_handler, hp, hsel, afterSelect, hpc, decodeStage, htry]
  refine ⟨hh, ?_, ?_⟩
  · rw [hh]
    intro hcon
    cases hcon
  · simp only [processMessage, hh]

/-- Witness for the amended C10: the paid record "m" under the
amountless decoder is skipped and a concrete display state is
unchanged. -/
theorem zap_wall_amountless_discard_witness :
    on_message_handler parseCW decodeNone fetchCW "m" = .skip ∧
    processMessage parseCW decodeNone fetchCW ⟨⟨["keep"], 2⟩, 4⟩ "m" = ⟨⟨["keep"], 2⟩, 4⟩ := by
  have h := zap_wall_amountless_discard parseCW decodeNone fetchCW "m" _ _ "lnb"
    ⟨none, none⟩ ⟨⟨["keep"], 2⟩, 4⟩ rfl rfl rfl rfl rfl rfl
  exact ⟨h.1, h.2.2⟩

lemma fetch_all_fail (p : String → Option Json) (subId pubkey : String) :
    ∀ relays : List (Option (List RFrame)),
      (∀ r ∈ relays, r.bind (processRelay p subId) = none) →
      fetch_profile_name p subId pubkey relays = .str (pubkey.take 12 ++ "…") := by
  intro relays
  induction relays with
  | nil =>
    intro _
    rfl
  | cons r rest ih =>
    intro hall
    cases r with
    | none =>
      show fetch_profile_name p subId pubkey rest = .str (pubkey.take 12 ++ "…")
      exact ih (fun r2 hm => hall r2 (List.mem_cons_of_mem _ hm))
    | some frames =>
      have hpr : processRelay p subId frames = none :=
        hall (some frames) (List.mem_cons_self _ _)
      show (match processRelay p subId frames with
        | some n => n
        | none => fetch_profile_name p subId pubkey rest) = .str (pubkey.take 12 ++ "…")
      rw [hpr]
      exact ih (fun r2 hm => hall r2 (List.mem_cons_of_mem _ hm))

lemma fetch_first_success (p : String → Option Json) (subId pubkey : String) :
    ∀ (pre : List (Option (List RFrame))) (frames : List RFrame)
      (rest : List (Option (List RFrame))) (n : Json),
      (∀ r ∈ pre, r.bind (processRelay p subId) = none) →
      processRelay p subId frames = some n →
      fetch_profile_name p subId pubkey (pre ++ some frames :: rest) = n := by
  intro pre
  induction pre with
  | nil =>
    intro frames rest n _ hpr
    show (match processRelay p subId frames with
      | some n2 => n2
      | none => fetch_profile_name p subId pubkey rest) = n
    rw [hpr]
  | cons r pre2 ih =>
    intro frames rest n hall hpr
    cases r with
    | none =>
      show fetch_profile_name p subId pubkey (pre2 ++ some frames :: rest) = n
      exact ih frames rest n (fun r2 hm => hall r2 (List.mem_cons_of_mem _ hm)) hpr
    | some fr2 =>
      have h0 : processRelay p subId fr2 = none :=
        hall (some fr2) (List.mem_cons_self _ _)
      show (match processRelay p subId fr2 with
        | some n2 => n2
        | none => fetch_profile_name p subId pubkey (pre2 ++ some frames :: rest)) = n
      rw [h0]
      exact ih frames rest n (fun r2 hm => hall r2 (List.mem_cons_of_mem _ hm)) hpr

/-- Claim C8: the resolver is total (its Lean embedding returns a value
for every relay behaviour — every raising step is caught internally):
when every directory fails or yields no name it returns the
deterministic fallback, the first 12 characters of the pubkey followed
by an ellipsis; when the first responding directory yields a name n the
result is n; and a matching profile EVENT is resolved to the first
truthy of display_name, name, username (break, and move on, when all
are empty). -/
theorem zap_wall_profile_fallback (p : String → Option Json) (subId pubkey : String)
    (relays : List (Option (List RFrame))) :
    ((∀ r ∈ relays, r.bind (processRelay p subId) = none) →
      fetch_profile_name p subId pubkey relays = .str (pubkey.take 12 ++ "…")) ∧
    (∀ pre frames rest n, relays = pre ++ some frames :: rest →
      (∀ r ∈ pre, r.bind (processRelay p subId) = none) →
      processRelay p subId frames = some n →
      fetch_profile_name p subId pubkey relays = n) ∧
    (∀ cs q, p cs = some (.obj q) →
      processFrame p subId
          (.ok (.arr [.str "EVENT", .str subId, .obj [("content", .str cs)]]))
        = (if (pyOrJ ((objGet q "display_name").getD .null)
              (pyOrJ ((objGet q "name").getD .null) ((objGet q "username").getD .null))).truthy
           then .ret (pyOrJ ((objGet q "display_name").getD .null)
              (pyOrJ ((objGet q "name").getD .null) ((objGet q "username").getD .null)))
           else .brk)) := by
  refine ⟨fetch_all_fail p subId pubkey relays, ?_, ?_⟩
  · intro pre frames rest n hrel hall hpr
    rw [hrel]
    exact fetch_first_success p subId pubkey pre frames rest n hall hpr
  · intro cs q hpq
    simp [processFrame, pyIndex, jeqStr, pyGetItem, objGet, hpq]

/-- Parse function for the resolver instances: the profile content
"meta" parses to a metadata object whose name is "alice". -/
def parseC8 : String → Option Json := fun r =>
  if r = "meta" then some (.obj [("name", .str "alice")]) else none

/-- Witness for C8: with the first directory unreachable and the second
erroring, the third directory's profile event resolves to "alice"; when
the only directories fail or return EOSE, the fallback is the first 12
characters of the pubkey plus the ellipsis. -/
theorem zap_wall_profile_fallback_witness :
    fetch_profile_name parseC8 "sub" "abcdefghijklmnop"
        [none, some [.err],
          some [.ok (.arr [.str "EVENT", .str "sub", .obj [("content", .str "meta")]])]]
      = .str "alice" ∧
    fetch_profile_name parseC8 "sub" "abcdefghijklmnop"
        [none, some [.ok (.arr [.str "EOSE", .str "sub"])]]
      = .str ("abcdefghijklmnop".take 12 ++ "…") := by
  constructor
  · exact (zap_wall_profile_fallback parseC8 "sub" "abcdefghijklmnop" _).2.1
      [none, some [.err]] _ [] (.str "alice") rfl
      (by
        intro r hm
        simp at hm
        rcases hm with rfl | rfl <;> rfl)
      rfl
  · exact (zap_wall_profile_fallback parseC8 "sub" "abcdefghijklmnop" _).1
      (by
        intro r hm
        simp at hm
        rcases hm with rfl | rfl <;> rfl)

end ZapWall

